import Mathlib

/-!
Shallow embedding of `sasutils/cli/sas_devices.py`, centred on
`SASDevicesCLI.print_end_devices` and its helpers: multipath deduplication
into logical units (devmap), enclosure clustering with orphan separation,
the `enclosure_finder` group-membership test, profile folding for
non-verbose output, and the display-attribute extraction of
`_get_dev_attrs`.  Line numbers in doc comments refer to that file.
-/

namespace SasDevices

/-- An array-device node; the source reads `blk.array_device.enclosure`.
Enclosures are compared by equality, modelled as natural numbers. -/
structure ArrayDevice where
  enclosure : ℕ
deriving DecidableEq

/-- A block-device node: its `name`, the sysfs path of its owning SCSI device
(`blk.scsi_device.sysfsnode.path` in the source), the result of
`sizebytes()`, and the optional `array_device` link. -/
structure BlockDevice where
  name : String
  sysfs_path : String
  sizebytes : ℕ
  array_device : Option ArrayDevice
deriving DecidableEq

/-- A SCSI device node with its inquiry attributes, optional block device and
the two identifier sources of lines 115-119: `vpd_pg83_lu` is the result of
`vpd_decode_pg83_lu(bytes(attrs.vpd_pg83))` (`none` models the
`AttributeError` path), `fallback_lu` the result of
`vpd_get_page83_lu(block.name)`.
Modelled from the spec: `vpd_get_page83_lu` is outside the embedded sources;
per spec section 6 the resolver either yields an identifier or fails with
`IdentifierUnavailable`, so `none` models that failure. -/
structure ScsiDevice where
  vendor : String
  model : String
  rev : String
  block : Option BlockDevice
  vpd_pg83_lu : Option String
  fallback_lu : Option String
deriving DecidableEq

/-- The `sas_device.attrs` of an end device; `bay_identifier` is the source's
`int(sas_end_device.sas_device.attrs.bay_identifier)`. -/
structure SasDeviceAttrs where
  bay_identifier : ℕ
deriving DecidableEq

/-- One `SASEndDevice` record (one access path to a disk). -/
structure SASEndDevice where
  scsi_device : ScsiDevice
  sas_device : SasDeviceAttrs
deriving DecidableEq

/-- The unit of the human-readable size string. -/
inductive SizeUnit where
  | TB
  | GB
deriving DecidableEq

/-- Human-readable size: the unit and the exact divided value.  The source
renders the value with a one-decimal format, which is presentation
(Reporter); the value is kept exact here as a rational. -/
structure SizeInfo where
  unit : SizeUnit
  value : ℚ
deriving DecidableEq

/-- Lines 76-81: choose TB with value `blk_sz / 1e12` when `blk_sz >= 1e12`,
else GB with value `blk_sz / 1e9`.  Python compares an int to a float
exactly, and the float `1e12` is exactly `10 ^ 12`, so the threshold is the
exact integer comparison. -/
def sizeInfoOf (blk_sz : ℕ) : SizeInfo :=
  if 10 ^ 12 ≤ blk_sz then ⟨SizeUnit.TB, (blk_sz : ℚ) / 10 ^ 12⟩
  else ⟨SizeUnit.GB, (blk_sz : ℚ) / 10 ^ 9⟩

/-- The record built by `_get_dev_attrs` (lines 64-83). -/
structure DevAttrs where
  vendor : String
  model : String
  rev : String
  bay : ℕ
  blk_sz_info : SizeInfo
deriving DecidableEq

/-- `_get_dev_attrs` (lines 64-83): vendor, model, rev, integer bay
identifier and size info read from the device's block device.  `none` when
the device has no block device (there the source would fail on attribute
access; devmap entries always carry one). -/
def get_dev_attrs (d : SASEndDevice) : Option DevAttrs :=
  d.scsi_device.block.map fun blk =>
    ⟨d.scsi_device.vendor, d.scsi_device.model, d.scsi_device.rev,
     d.sas_device.bay_identifier, sizeInfoOf blk.sizebytes⟩

/-- `m.setdefault(k, []).append(v)` on an insertion-ordered dict: the first
entry with key `k` gets `v` appended; when no entry has key `k`, a new
`(k, [v])` entry is appended at the end. -/
def setdefaultAppend {α β : Type} [DecidableEq α] (m : List (α × List β)) (k : α) (v : β) :
    List (α × List β) :=
  match m with
  | [] => [(k, [v])]
  | (k₀, l₀) :: rest =>
    if k₀ = k then (k₀, l₀ ++ [v]) :: rest else (k₀, l₀) :: setdefaultAppend rest k v

/-- First-match key lookup in an association list (dict indexing). -/
def lookupKey {α β : Type} [DecidableEq α] (k : α) : List (α × β) → Option β
  | [] => none
  | (k₀, v) :: rest => if k₀ = k then some v else lookupKey k rest

/-- Lines 115-119: the identifier resolution of one record.  The `try` branch
uses the decoded page-0x83 descriptor; on `AttributeError` the fallback
lookup runs inside the `except` block, so a failure there is uncaught and
propagates. -/
def resolveLU (sd : ScsiDevice) : Except String String :=
  match sd.vpd_pg83_lu with
  | some lu => Except.ok lu
  | none =>
    match sd.fallback_lu with
    | some lu => Except.ok lu
    | none => Except.error "IdentifierUnavailable"

/-- Lines 110-121: build `devmap : LU -> list of SASEndDevice`.  A record
whose SCSI device has no block device is skipped silently; a record whose
identifier resolution fails on both paths raises, aborting the loop
(modelled as `Except.error`). -/
def buildDevmapFrom (m : List (String × List SASEndDevice)) :
    List SASEndDevice → Except String (List (String × List SASEndDevice))
  | [] => Except.ok m
  | d :: rest =>
    match d.scsi_device.block with
    | none => buildDevmapFrom m rest
    | some _ =>
      match resolveLU d.scsi_device with
      | Except.error e => Except.error e
      | Except.ok lu => buildDevmapFrom (setdefaultAppend m lu d) rest

/-- The devmap built from the raw record sequence. -/
def buildDevmap (devices : List SASEndDevice) :
    Except String (List (String × List SASEndDevice)) :=
  buildDevmapFrom [] devices

/-- Line 128: `[d.scsi_device.block for d in sas_ed_list]`.  Devmap entries
always carry a block device (only records passing the `if scsi_device.block`
test are inserted), so `filterMap` reads exactly the blocks the source
reads. -/
def blklist (ds : List SASEndDevice) : List BlockDevice :=
  ds.filterMap fun d => d.scsi_device.block

/-- Lines 129-132: one warning per block device whose `array_device` is
`None`, naming the block device and the sysfs path of its SCSI device. -/
def pathWarnings (ds : List SASEndDevice) : List String :=
  (blklist ds).filterMap fun blk =>
    if blk.array_device = none then
      some ("Warning: no enclosure set for " ++ blk.name ++ " in " ++ blk.sysfs_path)
    else none

/-- Lines 133-135: the set of enclosures seen across the unit's paths that do
have an array device. -/
def encsOf (ds : List SASEndDevice) : Finset ℕ :=
  ((blklist ds).filterMap fun blk => blk.array_device.map ArrayDevice.enclosure).toFinset

/-- Lines 139-146: scan `encgroups` in order; the first group not disjoint
from `encs` absorbs it (in place, keeping list order); otherwise `encs` is
appended as a new group. -/
def insertEncs (encs : Finset ℕ) : List (Finset ℕ) → List (Finset ℕ)
  | [] => [encs]
  | g :: rest => if ¬ g ∩ encs = ∅ then (g ∪ encs) :: rest else g :: insertEncs encs rest

/-- The state of the clustering loop: warnings printed so far, `encgroups`
and `orphans` (lines 123-126). -/
structure ClusterState where
  warnings : List String
  encgroups : List (Finset ℕ)
  orphans : List (String × List SASEndDevice)
deriving DecidableEq

/-- One iteration of the loop of lines 127-146 on a `devmap` item. -/
def clusterStep (st : ClusterState) (item : String × List SASEndDevice) : ClusterState :=
  let ws := st.warnings ++ pathWarnings item.2
  let encs := encsOf item.2
  if encs = ∅ then ⟨ws, st.encgroups, st.orphans ++ [item]⟩
  else ⟨ws, insertEncs encs st.encgroups, st.orphans⟩

/-- Lines 127-146: the clustering pass over `devmap.items()` in map order. -/
def clusterDevmap (m : List (String × List SASEndDevice)) : ClusterState :=
  m.foldl clusterStep ⟨[], [], []⟩

/-- The groups-only step of the clustering loop. -/
def insertLU (groups : List (Finset ℕ)) (item : String × List SASEndDevice) :
    List (Finset ℕ) :=
  if encsOf item.2 = ∅ then groups else insertEncs (encsOf item.2) groups

/-- The groups component of the clustering pass, as its own fold. -/
def foldGroups (groups : List (Finset ℕ)) (m : List (String × List SASEndDevice)) :
    List (Finset ℕ) :=
  m.foldl insertLU groups

/-- All enclosures seen across the input units. -/
def seenEncs (m : List (String × List SASEndDevice)) : Finset ℕ :=
  m.foldr (fun i acc => encsOf i.2 ∪ acc) ∅

/-- `enclosure_finder` (lines 167-171): the unit matches the group's
enclosure set when some path's block device has an array device whose
enclosure is in the set. -/
def enclosure_finder (encset : Finset ℕ) (item : String × List SASEndDevice) : Bool :=
  (blklist item.2).any fun blk =>
    match blk.array_device with
    | some ad => decide (ad.enclosure ∈ encset)
    | none => false

/-- Line 173: `encdevs = list(ifilter(enclosure_finder, devmap.items()))`. -/
def encdevs (m : List (String × List SASEndDevice)) (encset : Finset ℕ) :
    List (String × List SASEndDevice) :=
  m.filter (enclosure_finder encset)

/-- Line 174: `maxpaths = max(len(devs) for lu, devs in encdevs)`.  The
source's `max` is over a nonempty generator (every group selects at least one
devmap item, proved below); `foldr max 0` agrees with it there. -/
def maxpathsOf (devs : List (String × List SASEndDevice)) : ℕ :=
  (devs.map fun i => i.2.length).foldr max 0

/-- Lines 95-98, `_print_lu_devlist`: the paths column carries the `*`
marker exactly when `maxpaths` is truthy (not `None`, nonzero) and the
device count is strictly below it.  `none` models the `maxpaths=None`
default used for the orphan listing. -/
def lu_devlist_marker (maxpaths : Option ℕ) (ndev : ℕ) : Bool :=
  match maxpaths with
  | none => false
  | some mp => decide (0 < mp) && decide (ndev < mp)

/-- Line 192: the folded entry's marker, `if maxpaths and t.paths < maxpaths`. -/
def folded_marker (maxpaths ndev : ℕ) : Bool :=
  decide (0 < maxpaths) && decide (ndev < maxpaths)

/-- The `FoldedDict` namedtuple key of line 187: the fields of
`_get_dev_attrs(devlist[0])` plus `paths = len(devlist)`, minus the deleted
`bay` (line 186).  Note `blk_sz_info` is part of the key. -/
structure FoldedKey where
  vendor : String
  model : String
  rev : String
  blk_sz_info : SizeInfo
  paths : ℕ
deriving DecidableEq

/-- Lines 183-187: the folding key of one devmap item.  `none` when the
devlist is empty or its first device has no block device (unreachable from
the pipeline, where devmap lists are nonempty and carry blocks). -/
def foldedKey (devlist : List SASEndDevice) : Option FoldedKey :=
  devlist.head?.bind fun d =>
    (get_dev_attrs d).map fun a =>
      ⟨a.vendor, a.model, a.rev, a.blk_sz_info, devlist.length⟩

/-- Line 188: `folded.setdefault(folded_key, []).append(devlist)`. -/
def foldStep (folded : List (FoldedKey × List (List SASEndDevice)))
    (item : String × List SASEndDevice) : List (FoldedKey × List (List SASEndDevice)) :=
  match foldedKey item.2 with
  | none => folded
  | some k => setdefaultAppend folded k item.2

/-- The folding loop of lines 182-189, from a given accumulator. -/
def foldProfilesFrom (acc : List (FoldedKey × List (List SASEndDevice)))
    (items : List (String × List SASEndDevice)) :
    List (FoldedKey × List (List SASEndDevice)) :=
  items.foldl foldStep acc

/-- The folded profiles of a group's `encdevs`. -/
def foldProfiles (items : List (String × List SASEndDevice)) :
    List (FoldedKey × List (List SASEndDevice)) :=
  foldProfilesFrom [] items

/-- Number of current groups whose enclosure set meets `encs`. -/
def countIntersecting (groups : List (Finset ℕ)) (encs : Finset ℕ) : ℕ :=
  groups.countP fun g => decide (¬ g ∩ encs = ∅)

/-- The no-bridging side condition (cf. spec sections 4.2 and 9): starting
from `groups`, no unit's enclosure set meets more than one of the groups
current when the unit is processed. -/
def bridgeFreeFrom (groups : List (Finset ℕ)) :
    List (String × List SASEndDevice) → Bool
  | [] => true
  | item :: rest =>
    let encs := encsOf item.2
    if encs = ∅ then bridgeFreeFrom groups rest
    else decide (countIntersecting groups encs ≤ 1) &&
      bridgeFreeFrom (insertEncs encs groups) rest

/-- The no-bridging side condition for a whole run. -/
def bridgeFree (m : List (String × List SASEndDevice)) : Bool :=
  bridgeFreeFrom [] m

/-! ### Helper lemmas about the group-merge step -/

theorem inter_union_empty {a b c : Finset ℕ} (h1 : a ∩ b = ∅) (h2 : a ∩ c = ∅) :
    a ∩ (b ∪ c) = ∅ := by
  rw [Finset.eq_empty_iff_forall_not_mem] at h1 h2 ⊢
  intro x hx
  rw [Finset.mem_inter, Finset.mem_union] at hx
  rcases hx.2 with h | h
  · exact h1 x (Finset.mem_inter.mpr ⟨hx.1, h⟩)
  · exact h2 x (Finset.mem_inter.mpr ⟨hx.1, h⟩)

theorem union_inter_empty {a b c : Finset ℕ} (h1 : a ∩ c = ∅) (h2 : b ∩ c = ∅) :
    (a ∪ b) ∩ c = ∅ := by
  rw [Finset.eq_empty_iff_forall_not_mem] at h1 h2 ⊢
  intro x hx
  rw [Finset.mem_inter, Finset.mem_union] at hx
  rcases hx.1 with h | h
  · exact h1 x (Finset.mem_inter.mpr ⟨h, hx.2⟩)
  · exact h2 x (Finset.mem_inter.mpr ⟨h, hx.2⟩)

theorem mem_insertEncs {encs : Finset ℕ} {groups : List (Finset ℕ)} {h : Finset ℕ}
    (hm : h ∈ insertEncs encs groups) :
    h ∈ groups ∨ (∃ g ∈ groups, h = g ∪ encs) ∨ h = encs := by
  induction groups with
  | nil =>
    simp only [insertEncs, List.mem_singleton] at hm
    exact Or.inr (Or.inr hm)
  | cons g rest ih =>
    simp only [insertEncs] at hm
    by_cases hd : g ∩ encs = ∅
    · rw [if_neg (not_not_intro hd)] at hm
      rcases List.mem_cons.mp hm with rfl | hm'
      · exact Or.inl (List.mem_cons_self _ _)
      · rcases ih hm' with h1 | ⟨g', hg', rfl⟩ | h3
        · exact Or.inl (List.mem_cons_of_mem _ h1)
        · exact Or.inr (Or.inl ⟨g', List.mem_cons_of_mem _ hg', rfl⟩)
        · exact Or.inr (Or.inr h3)
    · rw [if_pos hd] at hm
      rcases List.mem_cons.mp hm with rfl | hm'
      · exact Or.inr (Or.inl ⟨g, List.mem_cons_self _ _, rfl⟩)
      · exact Or.inl (List.mem_cons_of_mem _ hm')

theorem insertEncs_grows {encs : Finset ℕ} {groups : List (Finset ℕ)} {g : Finset ℕ}
    (hg : g ∈ groups) : ∃ h ∈ insertEncs encs groups, g ⊆ h := by
  induction groups with
  | nil => cases hg
  | cons g₀ rest ih =>
    simp only [insertEncs]
    by_cases hd : g₀ ∩ encs = ∅
    · rw [if_neg (not_not_intro hd)]
      rcases List.mem_cons.mp hg with rfl | hg'
      · exact ⟨g, List.mem_cons_self _ _, subset_rfl⟩
      · obtain ⟨h, hh, hsub⟩ := ih hg'
        exact ⟨h, List.mem_cons_of_mem _ hh, hsub⟩
    · rw [if_pos hd]
      rcases List.mem_cons.mp hg with rfl | hg'
      · exact ⟨g ∪ encs, List.mem_cons_self _ _, Finset.subset_union_left⟩
      · exact ⟨g, List.mem_cons_of_mem _ hg', subset_rfl⟩

theorem insertEncs_covers (encs : Finset ℕ) (groups : List (Finset ℕ)) :
    ∃ h ∈ insertEncs encs groups, encs ⊆ h := by
  induction groups with
  | nil => exact ⟨encs, List.mem_singleton_self _, subset_rfl⟩
  | cons g₀ rest ih =>
    simp only [insertEncs]
    by_cases hd : g₀ ∩ encs = ∅
    · rw [if_neg (not_not_intro hd)]
      obtain ⟨h, hh, hsub⟩ := ih
      exact ⟨h, List.mem_cons_of_mem _ hh, hsub⟩
    · rw [if_pos hd]
      exact ⟨g₀ ∪ encs, List.mem_cons_self _ _, Finset.subset_union_right⟩

theorem insertEncs_disjoint {encs : Finset ℕ} {groups : List (Finset ℕ)}
    (hp : groups.Pairwise fun a b => a ∩ b = ∅)
    (hc : countIntersecting groups encs ≤ 1) :
    (insertEncs encs groups).Pairwise fun a b => a ∩ b = ∅ := by
  induction groups with
  | nil => simp [insertEncs]
  | cons g rest ih =>
    rw [List.pairwise_cons] at hp
    obtain ⟨hgrest, hprest⟩ := hp
    simp only [insertEncs]
    by_cases hd : g ∩ encs = ∅
    · rw [if_neg (not_not_intro hd)]
      have hc' : countIntersecting rest encs ≤ 1 := by
        simpa [countIntersecting, List.countP_cons, hd] using hc
      rw [List.pairwise_cons]
      refine ⟨?_, ih hprest hc'⟩
      intro h hh
      rcases mem_insertEncs hh with h1 | ⟨g', hg', rfl⟩ | rfl
      · exact hgrest h h1
      · exact inter_union_empty (hgrest g' hg') hd
      · exact hd
    · rw [if_pos hd]
      have heq : countIntersecting (g :: rest) encs = countIntersecting rest encs + 1 := by
        simp [countIntersecting, List.countP_cons, hd]
      rw [heq] at hc
      have h0 : countIntersecting rest encs = 0 := by omega
      have hrest0 : ∀ b ∈ rest, b ∩ encs = ∅ := by
        intro b hb
        rw [countIntersecting] at h0
        have hb0 := List.countP_eq_zero.mp h0 b hb
        rw [decide_eq_true_iff, not_not] at hb0
        exact hb0
      rw [List.pairwise_cons]
      refine ⟨?_, hprest⟩
      intro b hb
      refine union_inter_empty (hgrest b hb) ?_
      rw [Finset.inter_comm]
      exact hrest0 b hb

/-! ### The clustering pass, decomposed into its three outputs -/

theorem clusterFold_eq (m : List (String × List SASEndDevice)) (st : ClusterState) :
    m.foldl clusterStep st =
      ⟨st.warnings ++ (m.map fun i => pathWarnings i.2).flatten,
       foldGroups st.encgroups m,
       st.orphans ++ m.filter fun i => decide (encsOf i.2 = ∅)⟩ := by
  induction m generalizing st with
  | nil => simp [foldGroups]
  | cons i rest ih =>
    rw [List.foldl_cons, ih]
    by_cases he : encsOf i.2 = ∅
    · simp [clusterStep, he, foldGroups, insertLU, List.filter_cons]
    · simp [clusterStep, he, foldGroups, insertLU, List.filter_cons]

theorem clusterDevmap_warnings (m : List (String × List SASEndDevice)) :
    (clusterDevmap m).warnings = (m.map fun i => pathWarnings i.2).flatten := by
  rw [clusterDevmap, clusterFold_eq]
  simp

theorem clusterDevmap_encgroups (m : List (String × List SASEndDevice)) :
    (clusterDevmap m).encgroups = foldGroups [] m := by
  rw [clusterDevmap, clusterFold_eq]

theorem clusterDevmap_orphans (m : List (String × List SASEndDevice)) :
    (clusterDevmap m).orphans = m.filter fun i => decide (encsOf i.2 = ∅) := by
  rw [clusterDevmap, clusterFold_eq]
  simp

theorem foldGroups_grows {m : List (String × List SASEndDevice)}
    {groups : List (Finset ℕ)} {g : Finset ℕ} (hg : g ∈ groups) :
    ∃ h ∈ foldGroups groups m, g ⊆ h := by
  induction m generalizing groups g with
  | nil => exact ⟨g, hg, subset_rfl⟩
  | cons i rest ih =>
    rw [foldGroups, List.foldl_cons]
    by_cases he : encsOf i.2 = ∅
    · rw [insertLU, if_pos he]
      exact ih hg
    · rw [insertLU, if_neg he]
      obtain ⟨h₁, hh₁, hsub₁⟩ := @insertEncs_grows (encsOf i.2) _ _ hg
      obtain ⟨h, hh, hsub⟩ := ih hh₁
      exact ⟨h, hh, hsub₁.trans hsub⟩

theorem foldGroups_covers {m : List (String × List SASEndDevice)}
    {groups : List (Finset ℕ)} {item : String × List SASEndDevice}
    (hm : item ∈ m) (hne : ¬ encsOf item.2 = ∅) :
    ∃ h ∈ foldGroups groups m, encsOf item.2 ⊆ h := by
  induction m generalizing groups with
  | nil => cases hm
  | cons i rest ih =>
    rw [foldGroups, List.foldl_cons]
    rcases List.mem_cons.mp hm with rfl | hm'
    · rw [insertLU, if_neg hne]
      obtain ⟨h₁, hh₁, hsub₁⟩ := insertEncs_covers (encsOf item.2) groups
      obtain ⟨h, hh, hsub⟩ := foldGroups_grows hh₁
      exact ⟨h, hh, hsub₁.trans hsub⟩
    · exact ih hm'

theorem foldGroups_mem {m : List (String × List SASEndDevice)}
    {groups : List (Finset ℕ)} {g : Finset ℕ} (hg : g ∈ foldGroups groups m) :
    (∃ g₀ ∈ groups, g₀ ⊆ g) ∨
      (∃ i ∈ m, ¬ encsOf i.2 = ∅ ∧ encsOf i.2 ⊆ g) := by
  induction m generalizing groups with
  | nil => exact Or.inl ⟨g, hg, subset_rfl⟩
  | cons i rest ih =>
    rw [foldGroups, List.foldl_cons] at hg
    by_cases he : encsOf i.2 = ∅
    · rw [insertLU, if_pos he] at hg
      rcases ih hg with ⟨g₀, hg₀, hsub⟩ | ⟨i', hi', hne', hsub'⟩
      · exact Or.inl ⟨g₀, hg₀, hsub⟩
      · exact Or.inr ⟨i', List.mem_cons_of_mem _ hi', hne', hsub'⟩
    · rw [insertLU, if_neg he] at hg
      rcases ih hg with ⟨g₁, hg₁, hsub₁⟩ | ⟨i', hi', hne', hsub'⟩
      · rcases mem_insertEncs hg₁ with h1 | ⟨g₀, hg₀, rfl⟩ | rfl
        · exact Or.inl ⟨g₁, h1, hsub₁⟩
        · exact Or.inr ⟨i, List.mem_cons_self _ _, he,
            (Finset.subset_union_right).trans hsub₁⟩
        · exact Or.inr ⟨i, List.mem_cons_self _ _, he, hsub₁⟩
      · exact Or.inr ⟨i', List.mem_cons_of_mem _ hi', hne', hsub'⟩

theorem foldGroups_disjoint {m : List (String × List SASEndDevice)}
    {groups : List (Finset ℕ)}
    (hp : groups.Pairwise fun a b => a ∩ b = ∅)
    (hbf : bridgeFreeFrom groups m = true) :
    (foldGroups groups m).Pairwise fun a b => a ∩ b = ∅ := by
  induction m generalizing groups with
  | nil => exact hp
  | cons i rest ih =>
    rw [foldGroups, List.foldl_cons]
    rw [bridgeFreeFrom] at hbf
    by_cases he : encsOf i.2 = ∅
    · rw [if_pos he] at hbf
      rw [insertLU, if_pos he]
      exact ih hp hbf
    · rw [if_neg he] at hbf
      rw [Bool.and_eq_true, decide_eq_true_iff] at hbf
      rw [insertLU, if_neg he]
      exact ih (insertEncs_disjoint hp hbf.1) hbf.2

theorem mem_seenEncs {m : List (String × List SASEndDevice)} {e : ℕ} :
    e ∈ seenEncs m ↔ ∃ i ∈ m, e ∈ encsOf i.2 := by
  induction m with
  | nil => simp [seenEncs]
  | cons i rest ih =>
    rw [seenEncs, List.foldr_cons]
    rw [seenEncs] at ih
    simp [Finset.mem_union, ih]

/-! ### The membership test and counting lemmas -/

theorem countP_elem_le_one {groups : List (Finset ℕ)}
    (hp : groups.Pairwise fun a b => a ∩ b = ∅) (e : ℕ) :
    groups.countP (fun g => decide (e ∈ g)) ≤ 1 := by
  induction groups with
  | nil => simp
  | cons g rest ih =>
    rw [List.pairwise_cons] at hp
    obtain ⟨hgrest, hprest⟩ := hp
    rw [List.countP_cons]
    by_cases he : e ∈ g
    · have h0 : rest.countP (fun g => decide (e ∈ g)) = 0 := by
        rw [List.countP_eq_zero]
        intro b hb hc
        rw [decide_eq_true_iff] at hc
        have hdis := hgrest b hb
        rw [Finset.eq_empty_iff_forall_not_mem] at hdis
        exact hdis e (Finset.mem_inter.mpr ⟨he, hc⟩)
      rw [h0]
      split <;> omega
    · have : (decide (e ∈ g)) = false := by simp [he]
      rw [this]
      simpa using ih hprest

theorem mem_encsOf {ds : List SASEndDevice} {e : ℕ} :
    e ∈ encsOf ds ↔
      ∃ blk ∈ blklist ds, ∃ ad, blk.array_device = some ad ∧ ad.enclosure = e := by
  simp only [encsOf, List.mem_toFinset, List.mem_filterMap, Option.map_eq_some']

theorem enclosure_finder_iff {encset : Finset ℕ} {item : String × List SASEndDevice} :
    enclosure_finder encset item = true ↔ ∃ e ∈ encsOf item.2, e ∈ encset := by
  rw [enclosure_finder, List.any_eq_true]
  constructor
  · rintro ⟨blk, hblk, hb⟩
    cases had : blk.array_device with
    | none => rw [had] at hb; cases hb
    | some ad =>
      rw [had] at hb
      refine ⟨ad.enclosure, ?_, of_decide_eq_true hb⟩
      exact mem_encsOf.mpr ⟨blk, hblk, ad, had, rfl⟩
  · rintro ⟨e, hee, hein⟩
    obtain ⟨blk, hblk, ad, had, rfl⟩ := mem_encsOf.mp hee
    refine ⟨blk, hblk, ?_⟩
    rw [had]
    exact decide_eq_true hein

theorem finder_false_of_encsOf_empty {item : String × List SASEndDevice}
    (he : encsOf item.2 = ∅) (g : Finset ℕ) : enclosure_finder g item = false := by
  by_contra h
  rw [Bool.not_eq_false] at h
  obtain ⟨e, hee, _⟩ := enclosure_finder_iff.mp h
  rw [he] at hee
  exact absurd hee (Finset.not_mem_empty e)

theorem countP_finder_le_one {groups : List (Finset ℕ)}
    {item : String × List SASEndDevice} {g₀ : Finset ℕ}
    (hp : groups.Pairwise fun a b => a ∩ b = ∅) (hg₀ : g₀ ∈ groups)
    (hsub : encsOf item.2 ⊆ g₀) :
    groups.countP (fun g => enclosure_finder g item) ≤ 1 := by
  induction groups with
  | nil => simp
  | cons g rest ih =>
    rw [List.pairwise_cons] at hp
    obtain ⟨hgrest, hprest⟩ := hp
    rw [List.countP_cons]
    rcases List.mem_cons.mp hg₀ with rfl | hg₀r
    · have h0 : rest.countP (fun g => enclosure_finder g item) = 0 := by
        rw [List.countP_eq_zero]
        intro b hb hfb
        obtain ⟨e, hee, heb⟩ := enclosure_finder_iff.mp hfb
        have hdis := hgrest b hb
        rw [Finset.eq_empty_iff_forall_not_mem] at hdis
        exact hdis e (Finset.mem_inter.mpr ⟨hsub hee, heb⟩)
      rw [h0]
      split <;> omega
    · have hf : enclosure_finder g item = false := by
        by_contra h
        rw [Bool.not_eq_false] at h
        obtain ⟨e, hee, heg⟩ := enclosure_finder_iff.mp h
        have hdis := hgrest g₀ hg₀r
        rw [Finset.eq_empty_iff_forall_not_mem] at hdis
        exact hdis e (Finset.mem_inter.mpr ⟨heg, hsub hee⟩)
      rw [hf]
      simpa using ih hprest hg₀r

/-! ### Folding: values are preserved as a multiset -/

theorem allVals_setdefaultAppend {α β : Type} [DecidableEq α]
    (m : List (α × List β)) (k : α) (v : β) :
    (((setdefaultAppend m k v).map Prod.snd).flatten).Perm
      ((m.map Prod.snd).flatten ++ [v]) := by
  induction m with
  | nil => simp [setdefaultAppend]
  | cons p rest ih =>
    obtain ⟨k₀, l₀⟩ := p
    rw [setdefaultAppend]
    by_cases hk : k₀ = k
    · rw [if_pos hk]
      simp only [List.map_cons, List.flatten_cons]
      rw [List.append_assoc, List.append_assoc]
      exact List.Perm.append_left _ List.perm_append_comm
    · rw [if_neg hk]
      simp only [List.map_cons, List.flatten_cons]
      rw [List.append_assoc]
      exact List.Perm.append_left _ ih

theorem foldVals_perm (items : List (String × List SASEndDevice))
    (acc : List (FoldedKey × List (List SASEndDevice)))
    (h : ∀ i ∈ items, (foldedKey i.2).isSome) :
    (((foldProfilesFrom acc items).map Prod.snd).flatten).Perm
      ((acc.map Prod.snd).flatten ++ items.map Prod.snd) := by
  induction items generalizing acc with
  | nil => simp [foldProfilesFrom]
  | cons i rest ih =>
    simp only [foldProfilesFrom, List.foldl_cons]
    have hk0 := h i (List.mem_cons_self _ _)
    obtain ⟨k, hk⟩ := Option.isSome_iff_exists.mp hk0
    have hstep : foldStep acc i = setdefaultAppend acc k i.2 := by rw [foldStep, hk]
    have hrest : ∀ j ∈ rest, (foldedKey j.2).isSome := fun j hj =>
      h j (List.mem_cons_of_mem _ hj)
    have ihh := ih (foldStep acc i) hrest
    simp only [foldProfilesFrom] at ihh
    refine ihh.trans ?_
    rw [hstep]
    have h1 := allVals_setdefaultAppend acc k i.2
    refine (h1.append_right _).trans ?_
    rw [List.append_assoc]
    simp

/-! ### Folding: first-match lookup characterization -/

theorem lookupKey_setdefaultAppend_self {α β : Type} [DecidableEq α]
    (m : List (α × List β)) (k : α) (v : β) :
    lookupKey k (setdefaultAppend m k v) = some (((lookupKey k m).getD []) ++ [v]) := by
  induction m with
  | nil => simp [setdefaultAppend, lookupKey]
  | cons p rest ih =>
    obtain ⟨k₀, l₀⟩ := p
    rw [setdefaultAppend]
    by_cases hk : k₀ = k
    · rw [if_pos hk, lookupKey, if_pos hk, lookupKey, if_pos hk]
      rfl
    · rw [if_neg hk, lookupKey, if_neg hk, lookupKey, if_neg hk]
      exact ih

theorem lookupKey_setdefaultAppend_ne {α β : Type} [DecidableEq α]
    (m : List (α × List β)) {k k' : α} (v : β) (hne : k' ≠ k) :
    lookupKey k' (setdefaultAppend m k v) = lookupKey k' m := by
  induction m with
  | nil =>
    simp only [setdefaultAppend, lookupKey]
    rw [if_neg (fun h => hne h.symm)]
  | cons p rest ih =>
    obtain ⟨k₀, l₀⟩ := p
    rw [setdefaultAppend]
    by_cases hk : k₀ = k
    · subst hk
      rw [if_pos rfl, lookupKey, lookupKey]
      rw [if_neg (fun h => hne h.symm), if_neg (fun h => hne h.symm)]
    · rw [if_neg hk, lookupKey, lookupKey]
      by_cases hk' : k₀ = k'
      · rw [if_pos hk', if_pos hk']
      · rw [if_neg hk', if_neg hk']
        exact ih

theorem lookupKey_foldProfilesFrom (items : List (String × List SASEndDevice))
    (acc : List (FoldedKey × List (List SASEndDevice))) (k : FoldedKey) :
    lookupKey k (foldProfilesFrom acc items) =
      (if (items.filter fun i => decide (foldedKey i.2 = some k)) = []
       then lookupKey k acc
       else some (((lookupKey k acc).getD []) ++
         ((items.filter fun i => decide (foldedKey i.2 = some k)).map Prod.snd))) := by
  induction items generalizing acc with
  | nil => simp [foldProfilesFrom]
  | cons i rest ih =>
    simp only [foldProfilesFrom, List.foldl_cons] at *
    by_cases hik : foldedKey i.2 = some k
    · have hstep : foldStep acc i = setdefaultAppend acc k i.2 := by rw [foldStep, hik]
      rw [List.filter_cons_of_pos (by simp [hik])]
      rw [ih (foldStep acc i), hstep, lookupKey_setdefaultAppend_self]
      by_cases hre : (rest.filter fun i => decide (foldedKey i.2 = some k)) = []
      · rw [if_pos hre, if_neg (List.cons_ne_nil _ _), hre]
        simp
      · rw [if_neg hre, if_neg (List.cons_ne_nil _ _)]
        simp [List.append_assoc]
    · have hstep : lookupKey k (foldStep acc i) = lookupKey k acc := by
        rw [foldStep]
        cases hik2 : foldedKey i.2 with
        | none => rfl
        | some k2 =>
          have hne : k ≠ k2 := by
            intro h
            rw [h] at hik
            exact hik hik2
          exact lookupKey_setdefaultAppend_ne acc i.2 hne
      rw [List.filter_cons_of_neg (by simp [hik])]
      rw [ih (foldStep acc i), hstep]

/-! ### Devmap construction lemmas -/

theorem buildDevmapFrom_error {d : SASEndDevice} (l₁ l₂ : List SASEndDevice)
    (hblk : (d.scsi_device.block).isSome)
    (h83 : d.scsi_device.vpd_pg83_lu = none) (hfb : d.scsi_device.fallback_lu = none) :
    ∀ m, ∃ e, buildDevmapFrom m (l₁ ++ d :: l₂) = Except.error e := by
  induction l₁ with
  | nil =>
    intro m
    obtain ⟨blk, hb⟩ := Option.isSome_iff_exists.mp hblk
    exact ⟨"IdentifierUnavailable", by simp [buildDevmapFrom, hb, resolveLU, h83, hfb]⟩
  | cons a l₁ ih =>
    intro m
    rw [List.cons_append]
    cases ha : a.scsi_device.block with
    | none => simpa [buildDevmapFrom, ha] using ih m
    | some blk =>
      cases hr : resolveLU a.scsi_device with
      | error e => exact ⟨e, by simp [buildDevmapFrom, ha, hr]⟩
      | ok lu =>
        obtain ⟨e, he⟩ := ih (setdefaultAppend m lu a)
        exact ⟨e, by simp [buildDevmapFrom, ha, hr, he]⟩

theorem buildDevmapFrom_skip {r : SASEndDevice} (hr : r.scsi_device.block = none)
    (l₁ l₂ : List SASEndDevice) :
    ∀ m, buildDevmapFrom m (l₁ ++ r :: l₂) = buildDevmapFrom m (l₁ ++ l₂) := by
  induction l₁ with
  | nil =>
    intro m
    simp [buildDevmapFrom, hr]
  | cons a l₁ ih =>
    intro m
    rw [List.cons_append, List.cons_append, buildDevmapFrom, buildDevmapFrom]
    cases ha : a.scsi_device.block with
    | none => exact ih m
    | some blk =>
      cases hrl : resolveLU a.scsi_device with
      | error e => rfl
      | ok lu => exact ih _

/-! ### Warnings count lemmas -/

theorem pathWarnings_length (ds : List SASEndDevice) :
    (pathWarnings ds).length =
      ((blklist ds).filter fun blk => decide (blk.array_device = none)).length := by
  rw [pathWarnings]
  induction blklist ds with
  | nil => rfl
  | cons b l ih =>
    rw [List.filterMap_cons]
    by_cases hb : b.array_device = none
    · simp [List.filter_cons, hb, ih]
    · simp [List.filter_cons, hb, ih]

theorem warnings_total (m : List (String × List SASEndDevice)) :
    ((m.map fun i => pathWarnings i.2).flatten).length =
      (((m.map fun i => blklist i.2).flatten).filter
        fun blk => decide (blk.array_device = none)).length := by
  induction m with
  | nil => rfl
  | cons i rest ih =>
    simp only [List.map_cons, List.flatten_cons, List.filter_append, List.length_append]
    rw [pathWarnings_length, ih]

/-! ### Small generic helpers -/

theorem two_le_length_of_mem {α : Type} {l : List α} {a b : α}
    (ha : a ∈ l) (hb : b ∈ l) (hne : a ≠ b) : 2 ≤ l.length := by
  cases l with
  | nil => cases ha
  | cons x t =>
    cases t with
    | nil =>
      rw [List.mem_singleton] at ha hb
      exact absurd (ha.trans hb.symm) hne
    | cons y t2 =>
      simp only [List.length_cons]
      omega

/-! ### Claim theorems -/

/-- C1 (amended): under the no-bridging side condition `bridgeFree`, the
enclosure sets of the groups produced by the clustering pass are pairwise
disjoint and every enclosure seen in the input belongs to exactly one
group's set.  Without that condition a later unit bridging two existing
groups leaves the same enclosure in two groups (see the counterexample). -/
theorem encgroups_disjoint_of_bridgeFree (m : List (String × List SASEndDevice))
    (hbf : bridgeFree m = true) :
    ((clusterDevmap m).encgroups.Pairwise fun a b => a ∩ b = ∅) ∧
      ∀ e ∈ seenEncs m,
        (clusterDevmap m).encgroups.countP (fun g => decide (e ∈ g)) = 1 := by
  rw [bridgeFree] at hbf
  rw [clusterDevmap_encgroups]
  have hpd : (foldGroups [] m).Pairwise fun a b => a ∩ b = ∅ :=
    foldGroups_disjoint List.Pairwise.nil hbf
  refine ⟨hpd, ?_⟩
  intro e he
  obtain ⟨i, hi, hei⟩ := mem_seenEncs.mp he
  have hne : ¬ encsOf i.2 = ∅ := by
    intro h0
    rw [h0] at hei
    exact absurd hei (Finset.not_mem_empty e)
  obtain ⟨g, hg, hsub⟩ := @foldGroups_covers _ [] _ hi hne
  have hpos : 0 < (foldGroups [] m).countP (fun g => decide (e ∈ g)) := by
    rw [List.countP_pos_iff]
    exact ⟨g, hg, decide_eq_true (hsub hei)⟩
  have hle := countP_elem_le_one hpd e
  omega

/-- C2 (amended): under the no-bridging side condition, every devmap unit
either is an orphan — empty enclosure set, member of `orphans`, matched by no
group — or is matched by exactly one group through `enclosure_finder`, never
both.  Without the condition a unit can be matched by two groups (see the
counterexample). -/
theorem lu_in_one_group_or_orphan_of_bridgeFree (m : List (String × List SASEndDevice))
    (item : String × List SASEndDevice) (hm : item ∈ m) (hbf : bridgeFree m = true) :
    (encsOf item.2 = ∅ ∧ item ∈ (clusterDevmap m).orphans ∧
      (clusterDevmap m).encgroups.countP (fun g => enclosure_finder g item) = 0) ∨
    (¬ encsOf item.2 = ∅ ∧ item ∉ (clusterDevmap m).orphans ∧
      (clusterDevmap m).encgroups.countP (fun g => enclosure_finder g item) = 1) := by
  rw [bridgeFree] at hbf
  rw [clusterDevmap_orphans, clusterDevmap_encgroups]
  by_cases he : encsOf item.2 = ∅
  · refine Or.inl ⟨he, ?_, ?_⟩
    · rw [List.mem_filter]
      exact ⟨hm, decide_eq_true he⟩
    · rw [List.countP_eq_zero]
      intro g hg hfg
      rw [finder_false_of_encsOf_empty he g] at hfg
      cases hfg
  · refine Or.inr ⟨he, ?_, ?_⟩
    · intro hc
      rw [List.mem_filter, decide_eq_true_iff] at hc
      exact he hc.2
    · obtain ⟨g₀, hg₀, hsub⟩ := @foldGroups_covers _ [] _ hm he
      have hpd : (foldGroups [] m).Pairwise fun a b => a ∩ b = ∅ :=
        foldGroups_disjoint List.Pairwise.nil hbf
      have hle := countP_finder_le_one hpd hg₀ hsub
      obtain ⟨e, hee⟩ := Finset.nonempty_iff_ne_empty.mpr he
      have hfg : enclosure_finder g₀ item = true :=
        enclosure_finder_iff.mpr ⟨e, hee, hsub hee⟩
      have hpos : 0 < (foldGroups [] m).countP (fun g => enclosure_finder g item) := by
        rw [List.countP_pos_iff]
        exact ⟨g₀, hg₀, hfg⟩
      omega

/-- C3 (amended): a record carrying a block device whose identifier
resolution fails on both the page-0x83 path and the fallback lookup makes
the devmap construction raise: the run aborts with an error at that record,
the remaining records are not processed, and no skipped-device count is
produced.  (The failure of the fallback is modelled from the spec, see
`ScsiDevice`.) -/
theorem resolution_failure_aborts (l₁ l₂ : List SASEndDevice) (d : SASEndDevice)
    (hblk : (d.scsi_device.block).isSome)
    (h83 : d.scsi_device.vpd_pg83_lu = none) (hfb : d.scsi_device.fallback_lu = none) :
    ∃ e, buildDevmap (l₁ ++ d :: l₂) = Except.error e := by
  rw [buildDevmap]
  exact buildDevmapFrom_error l₁ l₂ hblk h83 hfb []

/-- C4 (amended): the folding key of one unit is (vendor, model, revision,
size info, path count) — the bay identifier is excluded; any two distinct
units of a group agreeing on all five key components, so in particular also
on the displayed size, land in the single folded entry of that key, whose
count includes both.  Agreement on (vendor, model, revision, path count)
alone does not suffice (see the counterexample). -/
theorem fold_key_groups_units (items : List (String × List SASEndDevice))
    (u1 u2 : String × List SASEndDevice) (k : FoldedKey)
    (h1 : u1 ∈ items) (h2 : u2 ∈ items) (hne : u1 ≠ u2)
    (hk1 : foldedKey u1.2 = some k) (hk2 : foldedKey u2.2 = some k) :
    ∃ v, lookupKey k (foldProfiles items) = some v ∧
      u1.2 ∈ v ∧ u2.2 ∈ v ∧ 2 ≤ v.length := by
  have hmem1 : u1 ∈ items.filter fun i => decide (foldedKey i.2 = some k) :=
    List.mem_filter.mpr ⟨h1, decide_eq_true hk1⟩
  have hmem2 : u2 ∈ items.filter fun i => decide (foldedKey i.2 = some k) :=
    List.mem_filter.mpr ⟨h2, decide_eq_true hk2⟩
  have hfne : ¬ (items.filter fun i => decide (foldedKey i.2 = some k)) = [] :=
    List.ne_nil_of_mem hmem1
  rw [foldProfiles, lookupKey_foldProfilesFrom, if_neg hfne]
  refine ⟨_, rfl, ?_, ?_, ?_⟩
  · simp only [lookupKey, Option.getD_none, List.nil_append]
    exact List.mem_map.mpr ⟨u1, hmem1, rfl⟩
  · simp only [lookupKey, Option.getD_none, List.nil_append]
    exact List.mem_map.mpr ⟨u2, hmem2, rfl⟩
  · simp only [lookupKey, Option.getD_none, List.nil_append, List.length_map]
    exact two_le_length_of_mem hmem1 hmem2 hne

/-- C5: expanding every folded entry back to its member units reproduces
exactly the multiset of units of the group — no unit lost, none duplicated —
and the folded counts sum to the number of units. -/
theorem fold_expand_perm (items : List (String × List SASEndDevice))
    (h : ∀ i ∈ items, (foldedKey i.2).isSome) :
    (((foldProfiles items).map Prod.snd).flatten).Perm (items.map Prod.snd) ∧
      ((foldProfiles items).map fun p => p.2.length).sum = items.length := by
  have hp := foldVals_perm items [] h
  simp only [List.map_nil, List.flatten_nil, List.nil_append] at hp
  rw [foldProfiles]
  refine ⟨hp, ?_⟩
  have hlen := hp.length_eq
  rw [List.length_flatten] at hlen
  simpa [List.map_map, Function.comp] using hlen

/-- C6: within a group, the verbose per-unit marker and the folded-entry
marker are set exactly when the path count is strictly below the group
maximum `maxpaths`. -/
theorem underpathed_marker_iff (m : List (String × List SASEndDevice))
    (g : Finset ℕ) (_hg : g ∈ (clusterDevmap m).encgroups) :
    (∀ item ∈ encdevs m g,
      (lu_devlist_marker (some (maxpathsOf (encdevs m g))) item.2.length = true ↔
        item.2.length < maxpathsOf (encdevs m g))) ∧
    (∀ kv ∈ foldProfiles (encdevs m g),
      (folded_marker (maxpathsOf (encdevs m g)) kv.1.paths = true ↔
        kv.1.paths < maxpathsOf (encdevs m g))) := by
  constructor
  · intro item hitem
    simp only [lu_devlist_marker, Bool.and_eq_true, decide_eq_true_iff]
    omega
  · intro kv hkv
    simp only [folded_marker, Bool.and_eq_true, decide_eq_true_iff]
    omega

/-- C7: a unit all of whose paths lack an enclosure reference lands in the
orphans and is matched by no enclosure group, and the clustering pass emits
exactly one warning per enclosure-less path across all units, whether or not
their unit lands in a group. -/
theorem orphan_no_group_and_warnings (m : List (String × List SASEndDevice))
    (item : String × List SASEndDevice) (hm : item ∈ m)
    (hall : ∀ blk ∈ blklist item.2, blk.array_device = none) :
    item ∈ (clusterDevmap m).orphans ∧
      (∀ g ∈ (clusterDevmap m).encgroups, enclosure_finder g item = false) ∧
      (clusterDevmap m).warnings.length =
        (((m.map fun i => blklist i.2).flatten).filter
          fun blk => decide (blk.array_device = none)).length := by
  have he : encsOf item.2 = ∅ := by
    rw [Finset.eq_empty_iff_forall_not_mem]
    intro e hee
    obtain ⟨blk, hblk, ad, had, -⟩ := mem_encsOf.mp hee
    rw [hall blk hblk] at had
    cases had
  refine ⟨?_, ?_, ?_⟩
  · rw [clusterDevmap_orphans, List.mem_filter]
    exact ⟨hm, decide_eq_true he⟩
  · intro g hg
    exact finder_false_of_encsOf_empty he g
  · rw [clusterDevmap_warnings]
    exact warnings_total m

/-- C8: the displayed size uses the TB unit with value s / 10^12 exactly when
s is at least 10^12 bytes, and the GB unit with value s / 10^9 otherwise. -/
theorem size_unit_threshold (s : ℕ) :
    (10 ^ 12 ≤ s ∧ sizeInfoOf s = ⟨SizeUnit.TB, (s : ℚ) / 10 ^ 12⟩) ∨
      (s < 10 ^ 12 ∧ sizeInfoOf s = ⟨SizeUnit.GB, (s : ℚ) / 10 ^ 9⟩) := by
  by_cases h : 10 ^ 12 ≤ s
  · exact Or.inl ⟨h, by rw [sizeInfoOf, if_pos h]⟩
  · exact Or.inr ⟨by omega, by rw [sizeInfoOf, if_neg h]⟩

/-- C9: a record whose SCSI device has no block device is silently excluded
from the whole report: the devmap — and with it the clustering output
(groups, orphans, warnings) — is identical to the one built without the
record, and no error is raised for it. -/
theorem blockless_record_skipped (l₁ l₂ : List SASEndDevice) (r : SASEndDevice)
    (hr : r.scsi_device.block = none) :
    buildDevmap (l₁ ++ r :: l₂) = buildDevmap (l₁ ++ l₂) ∧
      (buildDevmap (l₁ ++ r :: l₂)).map clusterDevmap =
        (buildDevmap (l₁ ++ l₂)).map clusterDevmap := by
  have h := buildDevmapFrom_skip hr l₁ l₂ []
  rw [buildDevmap, buildDevmap]
  exact ⟨h, by rw [h]⟩

/-- C10: every group produced by the clustering pass is matched by at least
one devmap unit through `enclosure_finder`, so `encdevs` is nonempty and the
group maximum of path counts is taken over a nonempty collection. -/
theorem encgroup_nonempty_devs (m : List (String × List SASEndDevice))
    (g : Finset ℕ) (hg : g ∈ (clusterDevmap m).encgroups) :
    encdevs m g ≠ [] := by
  rw [clusterDevmap_encgroups] at hg
  rcases foldGroups_mem hg with ⟨g₀, hg₀, -⟩ | ⟨i, hi, hne, hsub⟩
  · cases hg₀
  · obtain ⟨e, hee⟩ := Finset.nonempty_iff_ne_empty.mpr hne
    have hf : enclosure_finder g i = true := enclosure_finder_iff.mpr ⟨e, hee, hsub hee⟩
    have hmem : i ∈ encdevs m g := by
      rw [encdevs, List.mem_filter]
      exact ⟨hi, hf⟩
    exact List.ne_nil_of_mem hmem

/-! ### Concrete inputs for counterexamples and witnesses -/

/-- A one-path end device: optional enclosure `encl`, block name `nm`, size
`sz` bytes, bay `bay`. -/
def mkDev (encl : Option ℕ) (nm : String) (sz bay : ℕ) : SASEndDevice :=
  { scsi_device :=
      { vendor := "ACME", model := "D1", rev := "1.0",
        block := some
          { name := nm, sysfs_path := "/sys/devices/" ++ nm, sizebytes := sz,
            array_device := encl.map fun e => ⟨e⟩ },
        vpd_pg83_lu := some ("lu-" ++ nm), fallback_lu := none },
    sas_device := { bay_identifier := bay } }

/-- Unit touching enclosure 1 only. -/
def luA : String × List SASEndDevice := ("LU-A", [mkDev (some 1) "sda" (10 ^ 9) 0])

/-- Unit touching enclosure 2 only. -/
def luB : String × List SASEndDevice := ("LU-B", [mkDev (some 2) "sdb" (10 ^ 9) 1])

/-- Bridge unit touching enclosures 1 and 2 through two paths. -/
def luC : String × List SASEndDevice :=
  ("LU-C", [mkDev (some 1) "sdc1" (10 ^ 9) 2, mkDev (some 2) "sdc2" (10 ^ 9) 2])

/-- Devmap in which a bridge unit is processed after the two groups exist. -/
def bridgeInput : List (String × List SASEndDevice) := [luA, luB, luC]

/-- A record with a block device but no identifier from either path. -/
def badRecord : SASEndDevice :=
  { scsi_device :=
      { vendor := "ACME", model := "D1", rev := "1.0",
        block := some { name := "sdbad", sysfs_path := "/sys/devices/sdbad",
                        sizebytes := 10 ^ 9, array_device := none },
        vpd_pg83_lu := none, fallback_lu := none },
    sas_device := { bay_identifier := 0 } }

/-- A record whose SCSI device has no block device. -/
def blocklessRecord : SASEndDevice :=
  { scsi_device :=
      { vendor := "ACME", model := "D1", rev := "1.0", block := none,
        vpd_pg83_lu := none, fallback_lu := none },
    sas_device := { bay_identifier := 0 } }

/-- Unit with a 1 GB disk. -/
def sizeU1 : String × List SASEndDevice := ("LU-S1", [mkDev (some 1) "sds1" (10 ^ 9) 3])

/-- Unit with a 2 GB disk, same vendor, model, revision and path count. -/
def sizeU2 : String × List SASEndDevice := ("LU-S2", [mkDev (some 1) "sds2" (2 * 10 ^ 9) 4])

/-- Unit in bay 10. -/
def bayU1 : String × List SASEndDevice := ("LU-B1", [mkDev (some 1) "sdx" (10 ^ 9) 10])

/-- Unit identical to `bayU1` except for its bay and names. -/
def bayU2 : String × List SASEndDevice := ("LU-B2", [mkDev (some 1) "sdy" (10 ^ 9) 11])

/-- Unit whose two paths both lack an enclosure reference. -/
def orphanU : String × List SASEndDevice :=
  ("LU-O", [mkDev none "sdo1" (10 ^ 9) 5, mkDev none "sdo2" (10 ^ 9) 5])

/-! ### Counterexamples -/

/-- C1 counterexample: on `bridgeInput`, the unit bridging enclosures 1 and 2
is absorbed by the first group only, leaving groups `[{1, 2}, {2}]` —
enclosure 2 is in two groups, so the groups are not pairwise disjoint and an
input enclosure does not belong to exactly one group. -/
theorem encgroups_not_disjoint_cex :
    (clusterDevmap bridgeInput).encgroups = [{1, 2}, {2}] ∧
      ¬ ((clusterDevmap bridgeInput).encgroups.Pairwise fun a b => a ∩ b = ∅) ∧
      (clusterDevmap bridgeInput).encgroups.countP (fun g => decide (2 ∈ g)) = 2 := by
  refine ⟨by decide, by decide, by decide⟩

/-- C2 counterexample: on `bridgeInput`, unit `LU-B` is matched by both
groups through `enclosure_finder`, so it is not counted in exactly one
group. -/
theorem lu_in_two_groups_cex :
    luB ∈ bridgeInput ∧
      (clusterDevmap bridgeInput).encgroups.countP (fun g => enclosure_finder g luB) = 2 := by
  refine ⟨by decide, by decide⟩

/-- C3 counterexample: with a record failing both resolution paths placed
first, devmap construction aborts with an error; the healthy second record
is never processed and no skipped count is produced, so the run does not
complete normally. -/
theorem resolution_failure_cex :
    buildDevmap [badRecord, mkDev (some 1) "sda" (10 ^ 9) 0] =
      Except.error "IdentifierUnavailable" := rfl

/-- C4 counterexample: `sizeU1` and `sizeU2` agree on vendor, model, revision
and path count and differ only in disk size, yet they do not fold into a
single entry of count 2: the folded output has two entries of count 1,
because the key also contains the size info. -/
theorem fold_four_attr_key_cex :
    ((get_dev_attrs (mkDev (some 1) "sds1" (10 ^ 9) 3)).map fun a => (a.vendor, a.model, a.rev)) =
      ((get_dev_attrs (mkDev (some 1) "sds2" (2 * 10 ^ 9) 4)).map fun a => (a.vendor, a.model, a.rev)) ∧
    sizeU1.2.length = sizeU2.2.length ∧
    ((foldProfiles [sizeU1, sizeU2]).map fun p => p.2.length) = [1, 1] := by
  refine ⟨rfl, rfl, ?_⟩
  with_unfolding_all decide

/-! ### Witnesses -/

/-- Witness for C1 on the bridge-free input `[luA, luB]`. -/
theorem encgroups_disjoint_of_bridgeFree_witness :
    bridgeFree [luA, luB] = true ∧
      (((clusterDevmap [luA, luB]).encgroups.Pairwise fun a b => a ∩ b = ∅) ∧
        ∀ e ∈ seenEncs [luA, luB],
          (clusterDevmap [luA, luB]).encgroups.countP (fun g => decide (e ∈ g)) = 1) :=
  ⟨by decide, encgroups_disjoint_of_bridgeFree [luA, luB] (by decide)⟩

/-- Witness for C2: unit `luA` of the bridge-free input `[luA, luB]`. -/
theorem lu_in_one_group_or_orphan_of_bridgeFree_witness :
    (encsOf luA.2 = ∅ ∧ luA ∈ (clusterDevmap [luA, luB]).orphans ∧
      (clusterDevmap [luA, luB]).encgroups.countP (fun g => enclosure_finder g luA) = 0) ∨
    (¬ encsOf luA.2 = ∅ ∧ luA ∉ (clusterDevmap [luA, luB]).orphans ∧
      (clusterDevmap [luA, luB]).encgroups.countP (fun g => enclosure_finder g luA) = 1) :=
  lu_in_one_group_or_orphan_of_bridgeFree [luA, luB] luA (by decide) (by decide)

/-- Witness for C3: the failing record placed between two healthy ones. -/
theorem resolution_failure_aborts_witness :
    ∃ e, buildDevmap ([mkDev (some 1) "sda" (10 ^ 9) 0] ++ badRecord ::
      [mkDev (some 2) "sdb" (10 ^ 9) 1]) = Except.error e :=
  resolution_failure_aborts [mkDev (some 1) "sda" (10 ^ 9) 0]
    [mkDev (some 2) "sdb" (10 ^ 9) 1] badRecord (by decide) (by decide) (by decide)

/-- Witness for C4: two units identical except for bay identifier (and
device names) fold into the single entry of their shared key, with both
members present. -/
theorem fold_key_groups_units_witness :
    ∃ v, lookupKey (⟨"ACME", "D1", "1.0", ⟨SizeUnit.GB, 1⟩, 1⟩ : FoldedKey)
        (foldProfiles [bayU1, bayU2]) = some v ∧
      bayU1.2 ∈ v ∧ bayU2.2 ∈ v ∧ 2 ≤ v.length :=
  fold_key_groups_units [bayU1, bayU2] bayU1 bayU2
    ⟨"ACME", "D1", "1.0", ⟨SizeUnit.GB, 1⟩, 1⟩
    (by decide) (by decide) (by decide)
    (by with_unfolding_all decide) (by with_unfolding_all decide)

/-- Witness for C5 on a concrete two-unit group. -/
theorem fold_expand_perm_witness :
    (((foldProfiles [sizeU1, sizeU2]).map Prod.snd).flatten).Perm
        ([sizeU1, sizeU2].map Prod.snd) ∧
      ((foldProfiles [sizeU1, sizeU2]).map fun p => p.2.length).sum =
        ([sizeU1, sizeU2] : List (String × List SASEndDevice)).length :=
  fold_expand_perm [sizeU1, sizeU2] (by decide)

/-- Witness for C6 on the group `{1}` of the input `[luA, luB]`. -/
theorem underpathed_marker_iff_witness :
    (∀ item ∈ encdevs [luA, luB] {1},
      (lu_devlist_marker (some (maxpathsOf (encdevs [luA, luB] {1}))) item.2.length = true ↔
        item.2.length < maxpathsOf (encdevs [luA, luB] {1}))) ∧
    (∀ kv ∈ foldProfiles (encdevs [luA, luB] {1}),
      (folded_marker (maxpathsOf (encdevs [luA, luB] {1})) kv.1.paths = true ↔
        kv.1.paths < maxpathsOf (encdevs [luA, luB] {1}))) :=
  underpathed_marker_iff [luA, luB] {1} (by decide)

/-- Witness for C7: a unit with two enclosure-less paths, next to a healthy
unit. -/
theorem orphan_no_group_and_warnings_witness :
    orphanU ∈ (clusterDevmap [luA, orphanU]).orphans ∧
      (∀ g ∈ (clusterDevmap [luA, orphanU]).encgroups,
        enclosure_finder g orphanU = false) ∧
      (clusterDevmap [luA, orphanU]).warnings.length =
        ((([luA, orphanU].map fun i => blklist i.2).flatten).filter
          fun blk => decide (blk.array_device = none)).length :=
  orphan_no_group_and_warnings [luA, orphanU] orphanU (by decide) (by decide)

/-- Witness for C9: a blockless record between two healthy records changes
nothing. -/
theorem blockless_record_skipped_witness :
    buildDevmap ([mkDev (some 1) "sda" (10 ^ 9) 0] ++ blocklessRecord ::
        [mkDev (some 2) "sdb" (10 ^ 9) 1]) =
      buildDevmap ([mkDev (some 1) "sda" (10 ^ 9) 0] ++ [mkDev (some 2) "sdb" (10 ^ 9) 1]) ∧
      (buildDevmap ([mkDev (some 1) "sda" (10 ^ 9) 0] ++ blocklessRecord ::
          [mkDev (some 2) "sdb" (10 ^ 9) 1])).map clusterDevmap =
        (buildDevmap ([mkDev (some 1) "sda" (10 ^ 9) 0] ++
          [mkDev (some 2) "sdb" (10 ^ 9) 1])).map clusterDevmap :=
  blockless_record_skipped [mkDev (some 1) "sda" (10 ^ 9) 0]
    [mkDev (some 2) "sdb" (10 ^ 9) 1] blocklessRecord rfl

/-- Witness for C10 on the group `{1}` of the input `[luA, luB]`. -/
theorem encgroup_nonempty_devs_witness :
    encdevs [luA, luB] {1} ≠ [] :=
  encgroup_nonempty_devs [luA, luB] {1} (by decide)

end SasDevices
